import Mathlib

/-!
Shallow embedding of the geometric core of the site-scout repository
(src/scout/geo_utils.py, src/scout/infra.py, src/main.py) and proofs about it.

Python floats are modelled as real numbers; the Python `round` (round half
to even) is modelled by `pyRound`, and `%` on floats by `fmod`.  The Shapely
library calls (`nearest_points` on a `LineString`, `Polygon.contains`) are not
part of this repository; they are modelled by the locally-flat segment
projection and the even-odd ray-crossing rule that the specification
describes for them.
-/

open Classical

/-- Points in the Shapely (x = lon, y = lat) plane. -/
abbrev Pt := ℝ × ℝ

/-- The Python `math.radians`. -/
noncomputable def radians (d : ℝ) : ℝ := d * Real.pi / 180

/-- The Python built-in `round` to an integer: round half to even. -/
noncomputable def pyRound (x : ℝ) : ℤ :=
  if Int.fract x < 1 / 2 then ⌊x⌋
  else if Int.fract x = 1 / 2 then (if Even ⌊x⌋ then ⌊x⌋ else ⌊x⌋ + 1)
  else ⌊x⌋ + 1

/-- The Python `round(x, n)` to `n` decimal digits (the result is a float). -/
noncomputable def pyRoundTo (n : ℕ) (x : ℝ) : ℝ := (pyRound (x * 10 ^ n) : ℝ) / 10 ^ n

/-- The Python `%` on floats with a positive modulus. -/
noncomputable def fmod (x m : ℝ) : ℝ := x - m * ⌊x / m⌋

/-- The Python `math.atan2`. -/
noncomputable def atan2 (y x : ℝ) : ℝ := Complex.arg ⟨x, y⟩

/-- src/scout/geo_utils.py, `haversine_distance`: great-circle distance in km,
Earth radius 6371.0. -/
noncomputable def haversine_distance (lat1 lon1 lat2 lon2 : ℝ) : ℝ :=
  let φ1 := radians lat1
  let l1 := radians lon1
  let φ2 := radians lat2
  let l2 := radians lon2
  let dlat := φ2 - φ1
  let dlon := l2 - l1
  let a := Real.sin (dlat / 2) ^ 2 +
    Real.cos φ1 * Real.cos φ2 * Real.sin (dlon / 2) ^ 2
  let c := 2 * Real.arcsin (Real.sqrt a)
  6371.0 * c

/-- src/scout/geo_utils.py, `km_to_miles`. -/
noncomputable def km_to_miles (km : ℝ) : ℝ := km * 0.621371

/-- src/scout/geo_utils.py, `compass_direction`: the 8 compass labels. -/
def directions : List String := ["N", "NE", "E", "SE", "S", "SW", "W", "NW"]

/-- src/scout/geo_utils.py, `compass_direction`: normalized bearing in degrees,
`(degrees(atan2(y, x)) + 360) % 360`. -/
noncomputable def bearing_deg (from_lat from_lon to_lat to_lon : ℝ) : ℝ :=
  let f1 := radians from_lat
  let l1 := radians from_lon
  let f2 := radians to_lat
  let l2 := radians to_lon
  let dlon := l2 - l1
  let y := Real.sin dlon * Real.cos f2
  let x := Real.cos f1 * Real.sin f2 - Real.sin f1 * Real.cos f2 * Real.cos dlon
  fmod (atan2 y x * 180 / Real.pi + 360) 360

/-- src/scout/geo_utils.py, `compass_direction`: `index = round(bearing / 45) % 8`. -/
noncomputable def compass_index (from_lat from_lon to_lat to_lon : ℝ) : ℤ :=
  pyRound (bearing_deg from_lat from_lon to_lat to_lon / 45) % 8

/-- src/scout/geo_utils.py, `compass_direction`.  The source indexes
`directions[index]`; `getD` with an arbitrary default models this, and the
index is proved to be in range below. -/
noncomputable def compass_direction (from_lat from_lon to_lat to_lon : ℝ) : String :=
  directions.getD (compass_index from_lat from_lon to_lat to_lon).toNat "N"

/-- Squared Euclidean distance in the (lon, lat) plane. -/
def dist2 (p q : Pt) : ℝ := (p.1 - q.1) ^ 2 + (p.2 - q.2) ^ 2

/-- Nearest point to `q` on the segment from `a` to `b`, by locally-flat
point-to-segment projection with clamping.  This models what the Shapely
`nearest_points(q, LineString(...))` call computes per segment. -/
noncomputable def segClosest (q a b : Pt) : Pt :=
  let dx := b.1 - a.1
  let dy := b.2 - a.2
  let len2 := dx ^ 2 + dy ^ 2
  if len2 = 0 then a
  else
    let t := max 0 (min 1 (((q.1 - a.1) * dx + (q.2 - a.2) * dy) / len2))
    (a.1 + t * dx, a.2 + t * dy)

/-- Consecutive segments of a path. -/
def segsOf : List Pt → List (Pt × Pt)
  | a :: b :: rest => (a, b) :: segsOf (b :: rest)
  | _ => []

/-- Nearest point to `q` on a polyline path: the per-segment projection with
the smallest planar distance (first one wins on ties).  Models the Shapely
`nearest_points(q, LineString(path))[1]` call.  Only used on paths with at least
two vertices; shorter paths fall back to `q` or the single vertex. -/
noncomputable def lineClosest (q : Pt) (path : List Pt) : Pt :=
  match segsOf path with
  | [] => path.headD q
  | s :: rest =>
    rest.foldl
      (fun best seg =>
        let c := segClosest q seg.1 seg.2
        if dist2 q c < dist2 q best then c else best)
      (segClosest q s.1 s.2)

/-- src/scout/infra.py, `_nearest_on_paths`: fold over the paths keeping the
smallest haversine distance, starting from `(999999, None)`.  Paths with
fewer than 2 vertices use their single vertex directly (the single-point
fallback of the source); longer paths use the Shapely projection.  The
`except` fallback of the source to vertex iteration is unreachable here
because the projection is total. -/
noncomputable def nearest_on_paths (plat plon : ℝ) (paths : List (List Pt)) :
    ℝ × Option (ℝ × ℝ) :=
  paths.foldl
    (fun best path =>
      if path.length < 2 then
        match path with
        | [] => best
        | c :: _ =>
          let d := haversine_distance plat plon c.2 c.1
          if d < best.1 then (d, some (c.2, c.1)) else best
      else
        let np := lineClosest (plon, plat) path
        let d := haversine_distance plat plon np.2 np.1
        if d < best.1 then (d, some (np.2, np.1)) else best)
    (999999, none)

/-- The Python substring test `needle in hay`. -/
def strContainsSub (hay needle : String) : Bool :=
  hay.toList.tails.any (fun suf => needle.toList.isPrefixOf suf)

/-- Sort a list ascending by a real-valued key.  Models the Python stable
`list.sort(key=...)` (Timsort is stable; `mergeSort` is the stable sort of
the Lean library). -/
noncomputable def sortByKey {α : Type} (key : α → ℝ) (l : List α) : List α :=
  l.mergeSort (fun a b => decide (key a ≤ key b))

/-- Raw pipeline record from the EIA feature service, as read by
src/scout/infra.py `query_pipelines` (attributes are optional: `attrs.get`). -/
structure PipelineFeature where
  attr_operator : Option String
  attr_typepipe : Option String
  attr_status : Option String
  attr_fid : Option ℕ
  paths : List (List Pt)

/-- Normalized pipeline result record (the dict built in `query_pipelines`).
The `google_maps_link` / `eia_record_url` strings are pure formatting of the
nearest point and `fid` fields and are not modelled beyond those fields. -/
structure PipelineRecord where
  operator : String
  typepipe : String
  status : String
  distance_km : ℝ
  distance_mi : ℝ
  nearest_point_lat : ℝ
  nearest_point_lon : ℝ
  direction : String
  is_target_operator : Bool
  fid : Option ℕ

/-- Generic dedup loop shared by `query_pipelines` and
`query_transmission_lines`: per raw record, `emit` either skips it (`none`,
the `continue` of the source on empty/failed geometry) or yields a dedup key and
a normalized record; a record whose key is already in `seen` is dropped,
otherwise its key is added and the record kept. -/
def dedup_loop {α β κ : Type} [DecidableEq κ] (emit : α → Option (κ × β)) :
    List κ → List α → List β
  | _, [] => []
  | seen, f :: rest =>
    match emit f with
    | none => dedup_loop emit seen rest
    | some (k, b) =>
      if k ∈ seen then dedup_loop emit seen rest
      else b :: dedup_loop emit (k :: seen) rest

/-- Keys of the records kept by `dedup_loop` (proof device: the emitted
dedup keys, in emission order). -/
def dedup_keys {α β κ : Type} [DecidableEq κ] (emit : α → Option (κ × β)) :
    List κ → List α → List κ
  | _, [] => []
  | seen, f :: rest =>
    match emit f with
    | none => dedup_keys emit seen rest
    | some (k, _) =>
      if k ∈ seen then dedup_keys emit seen rest
      else k :: dedup_keys emit (k :: seen) rest

/-- Body of the feature loop of src/scout/infra.py `query_pipelines`
(lines 148-187): skip records with no paths or no nearest point, build the
dedup key `(Operator, round(dist, 0))` — the source string
`f"{operator}_{round(dist, 0)}"`, which encodes exactly this pair — and the
normalized record. -/
noncomputable def pipeline_emit (lat lon : ℝ) (target_ops : List String)
    (f : PipelineFeature) : Option ((String × ℤ) × PipelineRecord) :=
  if f.paths = [] then none
  else
    match nearest_on_paths lat lon f.paths with
    | (_, none) => none
    | (dist, some np) =>
      let operator := f.attr_operator.getD "Unknown"
      let tops := target_ops.map String.toLower
      some ((operator, pyRound dist),
        { operator := operator
          typepipe := f.attr_typepipe.getD "Unknown"
          status := f.attr_status.getD "Unknown"
          distance_km := pyRoundTo 1 dist
          distance_mi := pyRoundTo 1 (km_to_miles dist)
          nearest_point_lat := pyRoundTo 6 np.1
          nearest_point_lon := pyRoundTo 6 np.2
          direction := compass_direction lat lon np.1 np.2
          is_target_operator :=
            if tops = [] then false
            else tops.any (fun t => strContainsSub operator.toLower t)
          fid := f.attr_fid })

/-- src/scout/infra.py `query_pipelines`, from an already-fetched feature
batch: dedup with a fresh `seen` set, then stable sort by `distance_km`. -/
noncomputable def query_pipelines (lat lon : ℝ) (target_ops : List String)
    (feats : List PipelineFeature) : List PipelineRecord :=
  sortByKey (fun r => r.distance_km) (dedup_loop (pipeline_emit lat lon target_ops) [] feats)

/-- Raw transmission-line record from the HIFLD service
(src/scout/infra.py `query_transmission_lines`).  `attr_voltage` is the
already-coerced voltage: the source coercion `int(str(voltage).replace("kV", ""))`
with `None` for a missing or unparseable value (which the source maps to 0). -/
structure TransmissionFeature where
  attr_owner : Option String
  attr_voltage : Option ℤ
  attr_volt_class : Option String
  attr_status : Option String
  attr_objectid : Option ℕ
  paths : List (List Pt)

/-- Normalized transmission-line result record. -/
structure TransmissionRecord where
  owner : String
  voltage_kv : ℤ
  volt_class : String
  status : String
  distance_km : ℝ
  distance_mi : ℝ
  nearest_point_lat : ℝ
  nearest_point_lon : ℝ
  direction : String
  objectid : Option ℕ

/-- Body of the feature loop of src/scout/infra.py `query_transmission_lines`
(lines 241-287): voltage filter, then nearest point, then the dedup key
`(OWNER, voltage, round(dist, 0))` — the source string
`f"{owner}_{voltage}_{round(dist, 0)}"`. -/
noncomputable def transmission_emit (lat lon : ℝ) (min_voltage_kv : ℤ)
    (f : TransmissionFeature) : Option ((String × ℤ × ℤ) × TransmissionRecord) :=
  if f.paths = [] then none
  else
    let voltage := f.attr_voltage.getD 0
    if voltage < min_voltage_kv then none
    else
      match nearest_on_paths lat lon f.paths with
      | (_, none) => none
      | (dist, some np) =>
        let owner := f.attr_owner.getD "Unknown"
        some ((owner, voltage, pyRound dist),
          { owner := owner
            voltage_kv := voltage
            volt_class := f.attr_volt_class.getD ""
            status := f.attr_status.getD "Unknown"
            distance_km := pyRoundTo 1 dist
            distance_mi := pyRoundTo 1 (km_to_miles dist)
            nearest_point_lat := pyRoundTo 6 np.1
            nearest_point_lon := pyRoundTo 6 np.2
            direction := compass_direction lat lon np.1 np.2
            objectid := f.attr_objectid })

/-- src/scout/infra.py `query_transmission_lines` on a fetched batch. -/
noncomputable def query_transmission_lines (lat lon : ℝ) (min_voltage_kv : ℤ)
    (feats : List TransmissionFeature) : List TransmissionRecord :=
  sortByKey (fun r => r.distance_km)
    (dedup_loop (transmission_emit lat lon min_voltage_kv) [] feats)

/-- Python truthiness of an optional float (`not slat` is true for `None`
and for `0.0`). -/
noncomputable def truthy (v : Option ℝ) : Bool :=
  match v with
  | none => false
  | some x => decide (x ≠ 0)

/-- Raw substation record from the HIFLD service, as read by
src/scout/infra.py `query_substations`.  `geom_y` / `geom_x` are the
coordinates of the `geometry` member (`geom.get("y")` / `geom.get("x")`). -/
structure SubstationFeature where
  attr_name : Option String
  attr_type : Option String
  attr_status : Option String
  attr_lines : Option ℤ
  attr_city : Option String
  attr_county : Option String
  attr_state : Option String
  attr_source : Option String
  attr_sourcedate : Option String
  attr_latitude : Option ℝ
  attr_longitude : Option ℝ
  attr_objectid : Option ℕ
  geom_y : Option ℝ
  geom_x : Option ℝ

/-- Normalized substation result record. -/
structure SubstationRecord where
  name : String
  stype : String
  status : String
  lines : ℤ
  city : String
  county : String
  state : String
  source : String
  source_date : String
  distance_km : ℝ
  distance_mi : ℝ
  lat : ℝ
  lon : ℝ
  direction : String
  objectid : Option ℕ

/-- Body of the feature loop of src/scout/infra.py `query_substations`
(lines 455-491): take `LATITUDE`/`LONGITUDE` attributes; if either is falsy
(missing, null, or 0) replace BOTH by the geometry `y`/`x`; if either is
still falsy skip the record; otherwise build the normalized record. -/
noncomputable def substation_emit (lat lon : ℝ) (f : SubstationFeature) :
    Option SubstationRecord :=
  let slat0 := f.attr_latitude
  let slon0 := f.attr_longitude
  let slat1 := if !truthy slat0 || !truthy slon0 then f.geom_y else slat0
  let slon1 := if !truthy slat0 || !truthy slon0 then f.geom_x else slon0
  if !truthy slat1 || !truthy slon1 then none
  else
    let slat := slat1.getD 0
    let slon := slon1.getD 0
    let dist := haversine_distance lat lon slat slon
    some
      { name := f.attr_name.getD "Unknown"
        stype := f.attr_type.getD "Unknown"
        status := f.attr_status.getD "Unknown"
        lines := f.attr_lines.getD 0
        city := f.attr_city.getD ""
        county := f.attr_county.getD ""
        state := f.attr_state.getD ""
        source := f.attr_source.getD ""
        source_date := f.attr_sourcedate.getD ""
        distance_km := pyRoundTo 1 dist
        distance_mi := pyRoundTo 1 (km_to_miles dist)
        lat := pyRoundTo 6 slat
        lon := pyRoundTo 6 slon
        direction := compass_direction lat lon slat slon
        objectid := f.attr_objectid }

/-- src/scout/infra.py `query_substations` on a fetched batch: filter-map the
loop body over the records, then stable sort ascending by `distance_km`. -/
noncomputable def query_substations (lat lon : ℝ) (feats : List SubstationFeature) :
    List SubstationRecord :=
  sortByKey (fun r => r.distance_km) (feats.filterMap (substation_emit lat lon))

/-- A ring as handed to the Shapely `Polygon`: Shapely closes an unclosed ring. -/
noncomputable def closeRing (ring : List Pt) : List Pt :=
  match ring with
  | [] => []
  | a :: _ => if ring.getLast? = some a then ring else ring ++ [a]

/-- Even-odd ray-crossing test for one segment: the horizontal ray from `q`
to the right crosses the segment. -/
def crossesRay (q : Pt) (s : Pt × Pt) : Prop :=
  ((decide (s.1.2 > q.2)) ≠ (decide (s.2.2 > q.2))) ∧
    q.1 < s.1.1 + (s.2.1 - s.1.1) * (q.2 - s.1.2) / (s.2.2 - s.1.2)

/-- Point-in-ring by the even-odd rule (odd number of ray crossings). -/
noncomputable def inRing (q : Pt) (ring : List Pt) : Bool :=
  decide (Odd (((segsOf (closeRing ring)).filter (fun s => decide (crossesRay q s))).length))

/-- Point-in-polygon with holes: inside the exterior ring and outside every
interior ring.  Models the Shapely `Polygon(rings[0], rings[1:]).contains(q)` call
for query points not on a boundary. -/
noncomputable def polygonContains (q : Pt) (rings : List (List Pt)) : Bool :=
  match rings with
  | [] => false
  | ext :: holes => inRing q ext && holes.all (fun h => !inRing q h)

/-- Raw incorporated-place record from TIGERweb, as read by
src/scout/infra.py `query_city_limits_distance`.  `attr_centlat` /
`attr_centlon` are the already-parsed `CENTLAT`/`CENTLON` strings
(`float(str(...).replace("+", ""))`, default "0"). -/
structure CityFeature where
  attr_name : Option String
  attr_lsadc : Option String
  attr_centlat : Option ℝ
  attr_centlon : Option ℝ
  rings : List (List Pt)

/-- Normalized city-limits result record. -/
structure CityRecord where
  name : String
  ctype : String
  inside : Bool
  distance_to_boundary_km : ℝ
  distance_to_boundary_mi : ℝ
  distance_to_center_km : ℝ
  nearest_boundary_lat : ℝ
  nearest_boundary_lon : ℝ

/-- Body of the feature loop of src/scout/infra.py
`query_city_limits_distance` (lines 538-569): skip records with no rings;
otherwise report containment of the query point and the distance to the
nearest point on the exterior ring. -/
noncomputable def city_emit (lat lon : ℝ) (f : CityFeature) : Option CityRecord :=
  match f.rings with
  | [] => none
  | ext :: _ =>
    let q : Pt := (lon, lat)
    let np := lineClosest q (closeRing ext)
    let edge_dist := haversine_distance lat lon np.2 np.1
    let centlat := f.attr_centlat.getD 0
    let centlon := f.attr_centlon.getD 0
    some
      { name := f.attr_name.getD "Unknown"
        ctype := f.attr_lsadc.getD ""
        inside := polygonContains q f.rings
        distance_to_boundary_km := pyRoundTo 1 edge_dist
        distance_to_boundary_mi := pyRoundTo 1 (km_to_miles edge_dist)
        distance_to_center_km := pyRoundTo 1 (haversine_distance lat lon centlat centlon)
        nearest_boundary_lat := pyRoundTo 6 np.2
        nearest_boundary_lon := pyRoundTo 6 np.1 }

/-- src/scout/infra.py `query_city_limits_distance` on a fetched batch. -/
noncomputable def query_city_limits_distance (lat lon : ℝ) (feats : List CityFeature) :
    List CityRecord :=
  sortByKey (fun r => r.distance_to_boundary_km) (feats.filterMap (city_emit lat lon))

/-- The data `main` hands to the query layer once validation has passed
(src/main.py lines 54-101): the coordinates and the effective radius. -/
structure CoreCall where
  lat : ℝ
  lon : ℝ
  radius_km : ℝ

/-- src/main.py `main`, argument handling (lines 48-57): reject out-of-range
coordinates with a distinct error; then `radius_km = args.radius or
config.get("default_radius_km", 50)` — Python `or` falls back on a falsy
(absent or zero) radius — and the core queries run. -/
noncomputable def main_model (lat lon : ℝ) (radius : Option ℝ) : Except String CoreCall :=
  if ¬(-90 ≤ lat ∧ lat ≤ 90) ∨ ¬(-180 ≤ lon ∧ lon ≤ 180) then
    Except.error "Error: invalid coordinates"
  else
    let radius_km := match radius with
      | none => 50
      | some r => if r = 0 then 50 else r
    Except.ok { lat := lat, lon := lon, radius_km := radius_km }

/-- Concrete pipeline feature used to exercise the dedup loop: operator
"Op", geometry a single one-vertex path at (lon 0, lat 0). -/
def opFeature : PipelineFeature :=
  { attr_operator := some "Op", attr_typepipe := none, attr_status := none,
    attr_fid := none, paths := [[((0 : ℝ), (0 : ℝ))]] }

/-- The record `query_pipelines` builds for `opFeature` at query point
(lat 0, lon 1). -/
noncomputable def opRecord : PipelineRecord :=
  { operator := "Op"
    typepipe := "Unknown"
    status := "Unknown"
    distance_km := pyRoundTo 1 (haversine_distance 0 1 0 0)
    distance_mi := pyRoundTo 1 (km_to_miles (haversine_distance 0 1 0 0))
    nearest_point_lat := pyRoundTo 6 0
    nearest_point_lon := pyRoundTo 6 0
    direction := compass_direction 0 1 0 0
    is_target_operator := false
    fid := none }

/-- Concrete substation feature with truthy coordinate attributes
(LATITUDE 5, LONGITUDE 5) and no geometry fallback. -/
def subFeature : SubstationFeature :=
  { attr_name := none, attr_type := none, attr_status := none, attr_lines := none,
    attr_city := none, attr_county := none, attr_state := none, attr_source := none,
    attr_sourcedate := none, attr_latitude := some 5, attr_longitude := some 5,
    attr_objectid := none, geom_y := none, geom_x := none }

/-- The record `query_substations` builds for `subFeature` at query point
(lat 0, lon 0). -/
noncomputable def subRecord : SubstationRecord :=
  { name := "Unknown", stype := "Unknown", status := "Unknown", lines := 0,
    city := "", county := "", state := "", source := "", source_date := "",
    distance_km := pyRoundTo 1 (haversine_distance 0 0 5 5)
    distance_mi := pyRoundTo 1 (km_to_miles (haversine_distance 0 0 5 5))
    lat := pyRoundTo 6 5
    lon := pyRoundTo 6 5
    direction := compass_direction 0 0 5 5
    objectid := none }

/-- Concrete substation feature whose `LATITUDE` attribute is present and
non-null but zero (Python-falsy) while `LONGITUDE` is 10, with geometry
fallback coordinates y = 5, x = 20. -/
def subZeroLatFeature : SubstationFeature :=
  { attr_name := none, attr_type := none, attr_status := none, attr_lines := none,
    attr_city := none, attr_county := none, attr_state := none, attr_source := none,
    attr_sourcedate := none, attr_latitude := some 0, attr_longitude := some 10,
    attr_objectid := none, geom_y := some 5, geom_x := some 20 }

/-- The record `query_substations` builds for `subZeroLatFeature` at query
point (lat 0, lon 0): both coordinates come from the geometry fallback. -/
noncomputable def subZeroLatRecord : SubstationRecord :=
  { name := "Unknown", stype := "Unknown", status := "Unknown", lines := 0,
    city := "", county := "", state := "", source := "", source_date := "",
    distance_km := pyRoundTo 1 (haversine_distance 0 0 5 20)
    distance_mi := pyRoundTo 1 (km_to_miles (haversine_distance 0 0 5 20))
    lat := pyRoundTo 6 5
    lon := pyRoundTo 6 20
    direction := compass_direction 0 0 5 20
    objectid := none }

/-- The per-path quantity minimized by `_nearest_on_paths` for a path with
at least 2 vertices: the distance from the query point to the locally-flat
projection of the query point onto the segments of the path. -/
noncomputable def path_projection_distance (plat plon : ℝ) (path : List Pt) : ℝ :=
  haversine_distance plat plon (lineClosest (plon, plat) path).2
    (lineClosest (plon, plat) path).1

/-- A simple square ring (degrees, closed): the polygon containment test
fixture. -/
def sqRing : List Pt :=
  [((0 : ℝ), (0 : ℝ)), (10, 0), (10, 10), (0, 10), (0, 0)]

/-- City-limits feature whose geometry is the simple square `sqRing`. -/
def squareCity : CityFeature :=
  { attr_name := some "Square", attr_lsadc := none, attr_centlat := none,
    attr_centlon := none, rings := [sqRing] }

/-- The record `query_city_limits_distance` builds for `squareCity` at query
point (lat 2, lon 5): inside the square, nearest boundary point (lon 5,
lat 0) on the bottom edge. -/
noncomputable def squareCityRecord : CityRecord :=
  { name := "Square", ctype := "", inside := true,
    distance_to_boundary_km := pyRoundTo 1 (haversine_distance 2 5 0 5),
    distance_to_boundary_mi := pyRoundTo 1 (km_to_miles (haversine_distance 2 5 0 5)),
    distance_to_center_km := pyRoundTo 1 (haversine_distance 2 5 0 0),
    nearest_boundary_lat := pyRoundTo 6 0,
    nearest_boundary_lon := pyRoundTo 6 5 }

/-! ### Basic facts about the numeric helpers -/

theorem pyRound_floor_le (x : ℝ) : ⌊x⌋ ≤ pyRound x := by
  unfold pyRound
  split
  · exact le_refl _
  · split
    · split
      · exact le_refl _
      · omega
    · omega

theorem pyRound_le_floor_add_one (x : ℝ) : pyRound x ≤ ⌊x⌋ + 1 := by
  unfold pyRound
  split
  · omega
  · split
    · split <;> omega
    · omega

theorem pyRound_intCast (n : ℤ) : pyRound (n : ℝ) = n := by
  unfold pyRound
  rw [Int.fract_intCast, Int.floor_intCast]
  norm_num

theorem pyRound_zero : pyRound 0 = 0 := by
  simpa using pyRound_intCast 0

theorem fmod_nonneg {m : ℝ} (x : ℝ) (hm : 0 < m) : 0 ≤ fmod x m := by
  unfold fmod
  have h := Int.floor_le (x / m)
  have : m * (⌊x / m⌋ : ℝ) ≤ m * (x / m) := by
    exact mul_le_mul_of_nonneg_left h (le_of_lt hm)
  rw [mul_div_cancel₀ x (ne_of_gt hm)] at this
  linarith

theorem fmod_lt {m : ℝ} (x : ℝ) (hm : 0 < m) : fmod x m < m := by
  unfold fmod
  have h := Int.lt_floor_add_one (x / m)
  have : m * (x / m) < m * ((⌊x / m⌋ : ℝ) + 1) := by
    exact mul_lt_mul_of_pos_left h hm
  rw [mul_div_cancel₀ x (ne_of_gt hm)] at this
  nlinarith

theorem haversine_nonneg (a b c d : ℝ) : 0 ≤ haversine_distance a b c d := by
  unfold haversine_distance
  have h : 0 ≤ Real.arcsin (Real.sqrt (Real.sin ((radians c - radians a) / 2) ^ 2 +
      Real.cos (radians a) * Real.cos (radians c) *
        Real.sin ((radians d - radians b) / 2) ^ 2)) :=
    Real.arcsin_nonneg.mpr (Real.sqrt_nonneg _)
  positivity

theorem haversine_le_pi_mul (a b c d : ℝ) :
    haversine_distance a b c d ≤ 6371 * Real.pi := by
  unfold haversine_distance
  have h := Real.arcsin_le_pi_div_two (Real.sqrt (Real.sin ((radians c - radians a) / 2) ^ 2 +
      Real.cos (radians a) * Real.cos (radians c) *
        Real.sin ((radians d - radians b) / 2) ^ 2))
  norm_num
  nlinarith [Real.pi_pos]

theorem haversine_lt_999999 (a b c d : ℝ) : haversine_distance a b c d < 999999 := by
  have h1 := haversine_le_pi_mul a b c d
  have h2 := Real.pi_lt_d2
  nlinarith

/-! ### C9: identity, symmetry and non-negativity of the haversine distance -/

/-- C9: for every coordinate `a`, `haversine_distance(a, a) = 0`; for all
pairs the distance is symmetric (exactly, in the real-number model); and it
is always non-negative, with Earth radius 6371.0 km baked into the
definition. -/
theorem haversine_self_symm_nonneg :
    (∀ lat lon : ℝ, haversine_distance lat lon lat lon = 0) ∧
    (∀ a b c d : ℝ, haversine_distance a b c d = haversine_distance c d a b) ∧
    (∀ a b c d : ℝ, 0 ≤ haversine_distance a b c d) := by
  refine ⟨?_, ?_, ?_⟩
  · intro lat lon
    simp [haversine_distance, sub_self, Real.sqrt_zero, Real.arcsin_zero]
  · intro a b c d
    have key : ∀ x y : ℝ, Real.sin ((x - y) / 2) ^ 2 = Real.sin ((y - x) / 2) ^ 2 := by
      intro x y
      rw [show (x - y) / 2 = -((y - x) / 2) by ring, Real.sin_neg]
      ring
    simp only [haversine_distance]
    rw [key (radians c) (radians a), key (radians d) (radians b),
      mul_comm (Real.cos (radians a)) (Real.cos (radians c))]
  · intro a b c d
    exact haversine_nonneg a b c d

/-! ### C10: totality of the compass direction -/

theorem compass_index_nonneg (a b c d : ℝ) : 0 ≤ compass_index a b c d :=
  Int.emod_nonneg _ (by norm_num)

theorem compass_index_lt_8 (a b c d : ℝ) : compass_index a b c d < 8 :=
  Int.emod_lt_of_pos _ (by norm_num)

/-- C10: `compass_direction` is total: the index `round(bearing/45) % 8`
always lies in `0..7`, the result is always one of the 8 labels, and for
coincident endpoints (bearing undefined; `atan2(0, 0) = 0`) it returns
`"N"` rather than failing. -/
theorem compass_direction_total :
    (∀ a b c d : ℝ, 0 ≤ compass_index a b c d ∧ compass_index a b c d < 8) ∧
    (∀ a b c d : ℝ, compass_direction a b c d ∈ directions) ∧
    (∀ lat lon : ℝ, compass_direction lat lon lat lon = "N") := by
  refine ⟨fun a b c d => ⟨compass_index_nonneg a b c d, compass_index_lt_8 a b c d⟩, ?_, ?_⟩
  · intro a b c d
    have h0 := compass_index_nonneg a b c d
    have h8 := compass_index_lt_8 a b c d
    unfold compass_direction
    have hk : (compass_index a b c d).toNat < 8 := by omega
    interval_cases h : (compass_index a b c d).toNat <;> simp [directions]
  · intro lat lon
    have hzero : bearing_deg lat lon lat lon = 0 := by
      show fmod (atan2 (Real.sin (radians lon - radians lon) * Real.cos (radians lat))
        (Real.cos (radians lat) * Real.sin (radians lat) -
          Real.sin (radians lat) * Real.cos (radians lat) *
            Real.cos (radians lon - radians lon)) * 180 / Real.pi + 360) 360 = 0
      have hy : Real.sin (radians lon - radians lon) * Real.cos (radians lat) = 0 := by
        simp
      have hx : Real.cos (radians lat) * Real.sin (radians lat) -
          Real.sin (radians lat) * Real.cos (radians lat) *
            Real.cos (radians lon - radians lon) = 0 := by
        rw [sub_self, Real.cos_zero]
        ring
      rw [hy, hx]
      have harg : atan2 0 0 = 0 := by
        unfold atan2
        have : (⟨0, 0⟩ : ℂ) = 0 := by
          apply Complex.ext <;> simp
        rw [this, Complex.arg_zero]
      rw [harg]
      unfold fmod
      norm_num
    unfold compass_direction compass_index
    rw [hzero]
    norm_num [pyRound_zero]
    rfl

/-! ### C8: argument validation in main -/

/-- C8 counterexample: `main` does not reject a negative search radius.
With valid coordinates and `--radius -5` the queries run with radius -5
instead of a distinct error being raised. -/
theorem main_accepts_negative_radius :
    main_model 31 (-103) (some (-5)) = Except.ok ⟨31, -103, -5⟩ := by
  unfold main_model
  norm_num

/-- C8 amended: an out-of-range latitude or longitude is rejected with a
distinct error before any query runs, but a negative radius is NOT
validated: it is passed unchanged into the core (only `None` and `0` fall
back to the default of 50, via the Python `or`). -/
theorem main_validates_coordinates_only :
    (∀ lat lon : ℝ, ∀ radius : Option ℝ,
      (lat < -90 ∨ 90 < lat ∨ lon < -180 ∨ 180 < lon) →
        main_model lat lon radius = Except.error "Error: invalid coordinates") ∧
    (∀ lat lon r : ℝ, -90 ≤ lat → lat ≤ 90 → -180 ≤ lon → lon ≤ 180 → r ≠ 0 →
        main_model lat lon (some r) = Except.ok ⟨lat, lon, r⟩) := by
  constructor
  · intro lat lon radius h
    unfold main_model
    rw [if_pos]
    rcases h with h | h | h | h
    · exact Or.inl (fun hc => absurd hc.1 (not_le.mpr h))
    · exact Or.inl (fun hc => absurd hc.2 (not_le.mpr h))
    · exact Or.inr (fun hc => absurd hc.1 (not_le.mpr h))
    · exact Or.inr (fun hc => absurd hc.2 (not_le.mpr h))
  · intro lat lon r h1 h2 h3 h4 hr
    unfold main_model
    rw [if_neg (by push_neg; exact ⟨⟨h1, h2⟩, ⟨h3, h4⟩⟩)]
    simp [hr]

theorem main_validates_coordinates_only_witness :
    main_model 100 0 none = Except.error "Error: invalid coordinates" ∧
    main_model 31 (-103) (some 7) = Except.ok ⟨31, -103, 7⟩ :=
  ⟨main_validates_coordinates_only.1 100 0 none (by norm_num),
   main_validates_coordinates_only.2 31 (-103) 7 (by norm_num) (by norm_num)
     (by norm_num) (by norm_num) (by norm_num)⟩

/-! ### Evaluation of `nearest_on_paths` on small geometries -/

theorem nearest_on_paths_single_vertex (plat plon : ℝ) (c : Pt) :
    nearest_on_paths plat plon [[c]] =
      (haversine_distance plat plon c.2 c.1, some (c.2, c.1)) := by
  have hlt := haversine_lt_999999 plat plon c.2 c.1
  unfold nearest_on_paths
  simp only [List.foldl_cons, List.foldl_nil, List.length_cons, List.length_nil]
  norm_num
  intro h
  exact absurd h (not_le.mpr hlt)

theorem nearest_on_paths_pair (plat plon : ℝ) (a b : Pt) :
    nearest_on_paths plat plon [[a, b]] =
      (haversine_distance plat plon (segClosest (plon, plat) a b).2
          (segClosest (plon, plat) a b).1,
        some ((segClosest (plon, plat) a b).2, (segClosest (plon, plat) a b).1)) := by
  have hline : lineClosest (plon, plat) [a, b] = segClosest (plon, plat) a b := by
    unfold lineClosest
    simp [segsOf]
  have hlt := haversine_lt_999999 plat plon (segClosest (plon, plat) a b).2
    (segClosest (plon, plat) a b).1
  unfold nearest_on_paths
  simp only [List.foldl_cons, List.foldl_nil, List.length_cons, List.length_nil]
  rw [hline]
  norm_num
  intro h
  exact absurd h (not_le.mpr hlt)

/-! ### C2: no accuracy/mode flag on degraded (vertex-sampled) results -/

/-- C2 counterexample: `_nearest_on_paths` returns a bare
`(distance, nearest)` pair with no accuracy/mode annotation.  For the query
point (lat 0, lon 1), the single-vertex path `[(0,0)]` (which runs the
degraded vertex-sampling branch, path length 1 < 2) produces a result equal
to that of the two-vertex path `[(0,0),(0,10)]` (which runs the precise
segment-projection branch): the two modes are indistinguishable to a
caller, so no flag makes the degraded path recognizable. -/
theorem nearest_on_paths_no_mode_flag :
    (([((0 : ℝ), (0 : ℝ))] : List Pt).length < 2) ∧
    (¬ (([((0 : ℝ), (0 : ℝ)), ((0 : ℝ), (10 : ℝ))] : List Pt).length < 2)) ∧
    nearest_on_paths 0 1 [[((0 : ℝ), (0 : ℝ))]] =
      nearest_on_paths 0 1 [[(0, 0), (0, 10)]] := by
  refine ⟨by norm_num, by norm_num, ?_⟩
  rw [nearest_on_paths_single_vertex, nearest_on_paths_pair]
  have hseg : segClosest ((1 : ℝ), (0 : ℝ)) (0, 0) (0, 10) = ((0 : ℝ), (0 : ℝ)) := by
    unfold segClosest
    norm_num
  rw [hseg]

/-- C2 amended: when the computation degrades to vertex sampling (a path
with fewer than 2 vertices), the resolver returns the plain
`(distance-to-vertex, vertex)` pair in the same shape as a precise result;
no mode flag or annotation distinguishes the degraded path. -/
theorem nearest_on_paths_degraded_unflagged (plat plon : ℝ) (c : Pt) :
    nearest_on_paths plat plon [[c]] =
      (haversine_distance plat plon c.2 c.1, some (c.2, c.1)) :=
  nearest_on_paths_single_vertex plat plon c

/-! ### Structural lemmas about the dedup loop -/

theorem dedup_loop_drop_none {α β κ : Type} [DecidableEq κ] (emit : α → Option (κ × β))
    (f : α) (hf : emit f = none) :
    ∀ (xs : List α) (seen : List κ) (ys : List α),
      dedup_loop emit seen (xs ++ f :: ys) = dedup_loop emit seen (xs ++ ys)
  | [], seen, ys => by
    simp only [List.nil_append, dedup_loop, hf]
  | x :: xs, seen, ys => by
    simp only [List.cons_append, dedup_loop]
    cases hx : emit x with
    | none => exact dedup_loop_drop_none emit f hf xs seen ys
    | some kb =>
      by_cases hk : kb.1 ∈ seen
      · simp only [hk, if_pos]
        exact dedup_loop_drop_none emit f hf xs seen ys
      · simp only [hk, if_neg, not_false_iff]
        exact congrArg (kb.2 :: ·) (dedup_loop_drop_none emit f hf xs (kb.1 :: seen) ys)

/-! ### C7: malformed/empty geometry never aborts a batch -/

/-- C7: an empty batch yields an empty result list; a record whose geometry
has no paths is skipped while the rest of the batch is still processed (no
sentinel record is emitted for it); and a polyline path with fewer than 2
vertices is handled by treating its single available vertex as an isolated
point (distance to nearest vertex), not by raising. -/
theorem pipelines_robust_to_malformed_geometry :
    (∀ lat lon : ℝ, ∀ tops : List String, query_pipelines lat lon tops [] = []) ∧
    (∀ lat lon : ℝ, ∀ tops : List String, ∀ xs ys : List PipelineFeature,
      ∀ f : PipelineFeature, f.paths = [] →
        query_pipelines lat lon tops (xs ++ f :: ys) = query_pipelines lat lon tops (xs ++ ys)) ∧
    (∀ plat plon : ℝ, ∀ c : Pt,
      (nearest_on_paths plat plon [[c]]).1 = haversine_distance plat plon c.2 c.1 ∧
      (nearest_on_paths plat plon [[c]]).2 = some (c.2, c.1)) := by
  refine ⟨?_, ?_, ?_⟩
  · intro lat lon tops
    simp [query_pipelines, dedup_loop, sortByKey]
  · intro lat lon tops xs ys f hf
    unfold query_pipelines
    exact congrArg _ (dedup_loop_drop_none _ f (by simp [pipeline_emit, hf]) xs [] ys)
  · intro plat plon c
    rw [nearest_on_paths_single_vertex]
    exact ⟨rfl, rfl⟩

theorem pipelines_robust_witness :
    query_pipelines 0 0 []
        [{ attr_operator := none, attr_typepipe := none, attr_status := none,
           attr_fid := none, paths := [] }] = query_pipelines 0 0 [] [] ∧
    query_pipelines 0 0 [] [] = [] :=
  ⟨pipelines_robust_to_malformed_geometry.2.1 0 0 [] [] [] _ rfl,
   pipelines_robust_to_malformed_geometry.1 0 0 []⟩

theorem dedup_keys_nodup_disjoint {α β κ : Type} [DecidableEq κ] (emit : α → Option (κ × β)) :
    ∀ (xs : List α) (seen : List κ),
      (dedup_keys emit seen xs).Nodup ∧ ∀ k ∈ dedup_keys emit seen xs, k ∉ seen
  | [], seen => ⟨List.nodup_nil, by simp [dedup_keys]⟩
  | x :: xs, seen => by
    simp only [dedup_keys]
    cases hx : emit x with
    | none => exact dedup_keys_nodup_disjoint emit xs seen
    | some kb =>
      by_cases hk : kb.1 ∈ seen
      · simp only [hk, if_pos]
        exact dedup_keys_nodup_disjoint emit xs seen
      · simp only [hk, if_neg, not_false_iff]
        have ih := dedup_keys_nodup_disjoint emit xs (kb.1 :: seen)
        constructor
        · refine List.nodup_cons.mpr ⟨fun hmem => ?_, ih.1⟩
          exact (ih.2 _ hmem) (List.mem_cons_self _ _)
        · intro k hkmem
          rcases List.mem_cons.mp hkmem with rfl | hkmem'
          · exact hk
          · intro hks
            exact (ih.2 _ hkmem') (List.mem_cons_of_mem _ hks)

theorem dedup_keys_mem {α β κ : Type} [DecidableEq κ] (emit : α → Option (κ × β)) :
    ∀ (xs : List α) (seen : List κ) (f : α) (k : κ) (b : β),
      f ∈ xs → emit f = some (k, b) → k ∉ seen → k ∈ dedup_keys emit seen xs
  | [], _, _, _, _, h, _, _ => absurd h (List.not_mem_nil _)
  | x :: xs, seen, f, k, b, hmem, hemit, hks => by
    simp only [dedup_keys]
    rcases List.mem_cons.mp hmem with rfl | hmem'
    · rw [hemit]
      simp only [hks, if_neg, not_false_iff]
      exact List.mem_cons_self _ _
    · cases hx : emit x with
      | none => exact dedup_keys_mem emit xs seen f k b hmem' hemit hks
      | some kb =>
        by_cases hk : kb.1 ∈ seen
        · simp only [hk, if_pos]
          exact dedup_keys_mem emit xs seen f k b hmem' hemit hks
        · simp only [hk, if_neg, not_false_iff]
          by_cases hkk : k = kb.1
          · subst hkk
            exact List.mem_cons_self _ _
          · exact List.mem_cons_of_mem _
              (dedup_keys_mem emit xs (kb.1 :: seen) f k b hmem' hemit
                (by simp [hkk, hks]))

theorem dedup_loop_drop_dup {α β κ : Type} [DecidableEq κ] (emit : α → Option (κ × β))
    (g : α) (k : κ) (b : β) (hg : emit g = some (k, b)) :
    ∀ (xs : List α) (seen : List κ) (ys : List α),
      (k ∈ seen ∨ ∃ f ∈ xs, ∃ b', emit f = some (k, b')) →
      dedup_loop emit seen (xs ++ g :: ys) = dedup_loop emit seen (xs ++ ys)
  | [], seen, ys, hyp => by
    have hks : k ∈ seen := by
      rcases hyp with h | ⟨f, hf, _⟩
      · exact h
      · exact absurd hf (List.not_mem_nil _)
    simp only [List.nil_append, dedup_loop, hg, hks, if_pos]
  | x :: xs, seen, ys, hyp => by
    simp only [List.cons_append, dedup_loop]
    cases hx : emit x with
    | none =>
      apply dedup_loop_drop_dup emit g k b hg xs seen ys
      rcases hyp with h | ⟨f, hf, b', hb'⟩
      · exact Or.inl h
      · rcases List.mem_cons.mp hf with rfl | hf'
        · rw [hx] at hb'
          exact absurd hb' (by simp)
        · exact Or.inr ⟨f, hf', b', hb'⟩
    | some kb =>
      by_cases hk : kb.1 ∈ seen
      · simp only [hk, if_pos]
        apply dedup_loop_drop_dup emit g k b hg xs seen ys
        rcases hyp with h | ⟨f, hf, b', hb'⟩
        · exact Or.inl h
        · rcases List.mem_cons.mp hf with rfl | hf'
          · rw [hx] at hb'
            have hkk : kb.1 = k := by
              have := Option.some.inj hb'
              rw [this]
            exact Or.inl (hkk ▸ hk)
          · exact Or.inr ⟨f, hf', b', hb'⟩
      · simp only [hk, if_neg, not_false_iff]
        refine congrArg (kb.2 :: ·) (dedup_loop_drop_dup emit g k b hg xs (kb.1 :: seen) ys ?_)
        rcases hyp with h | ⟨f, hf, b', hb'⟩
        · exact Or.inl (List.mem_cons_of_mem _ h)
        · rcases List.mem_cons.mp hf with rfl | hf'
          · rw [hx] at hb'
            have hkk : kb.1 = k := by
              have := Option.some.inj hb'
              rw [this]
            exact Or.inl (hkk ▸ List.mem_cons_self _ _)
          · exact Or.inr ⟨f, hf', b', hb'⟩

theorem dedup_loop_length_eq_keys {α β κ : Type} [DecidableEq κ] (emit : α → Option (κ × β)) :
    ∀ (xs : List α) (seen : List κ),
      (dedup_loop emit seen xs).length = (dedup_keys emit seen xs).length
  | [], _ => rfl
  | x :: xs, seen => by
    simp only [dedup_loop, dedup_keys]
    cases hx : emit x with
    | none => exact dedup_loop_length_eq_keys emit xs seen
    | some kb =>
      by_cases hk : kb.1 ∈ seen
      · simp only [hk, if_pos]
        exact dedup_loop_length_eq_keys emit xs seen
      · simp only [hk, if_neg, not_false_iff, List.length_cons]
        exact congrArg (· + 1) (dedup_loop_length_eq_keys emit xs (kb.1 :: seen))

/-! ### C4: category-specific dedup keys collapse duplicates -/

theorem pipeline_emit_opFeature :
    pipeline_emit 0 1 [] opFeature =
      some ((("Op" : String), pyRound (haversine_distance 0 1 0 0)), opRecord) := by
  unfold pipeline_emit
  rw [if_neg (by simp [opFeature]), show opFeature.paths = [[((0 : ℝ), (0 : ℝ))]] from rfl,
    nearest_on_paths_single_vertex]
  rfl

/-- C4: in one query batch at most one record is kept per dedup key
(`(Operator, round(dist))` for pipelines, `(OWNER, voltage, round(dist))`
for transmission lines): the kept keys are pairwise distinct and in
bijection with the kept records; the first record that carries a key does
appear among the kept keys; and a record whose key was already emitted by an
earlier record of the same batch is dropped — the query result is the same
as if that record were absent. -/
theorem dedup_key_exactly_one :
    (∀ lat lon : ℝ, ∀ tops : List String, ∀ feats : List PipelineFeature,
      (dedup_keys (pipeline_emit lat lon tops) [] feats).Nodup ∧
      (dedup_loop (pipeline_emit lat lon tops) [] feats).length =
        (dedup_keys (pipeline_emit lat lon tops) [] feats).length) ∧
    (∀ lat lon : ℝ, ∀ tops : List String, ∀ f : PipelineFeature,
      ∀ feats : List PipelineFeature, ∀ k b,
      f ∈ feats → pipeline_emit lat lon tops f = some (k, b) →
      k ∈ dedup_keys (pipeline_emit lat lon tops) [] feats) ∧
    (∀ lat lon : ℝ, ∀ tops : List String,
      ∀ xs ys : List PipelineFeature, ∀ g : PipelineFeature, ∀ k b,
      pipeline_emit lat lon tops g = some (k, b) →
      (∃ f ∈ xs, ∃ b', pipeline_emit lat lon tops f = some (k, b')) →
      query_pipelines lat lon tops (xs ++ g :: ys) = query_pipelines lat lon tops (xs ++ ys)) ∧
    (∀ lat lon : ℝ, ∀ minkv : ℤ, ∀ feats : List TransmissionFeature,
      (dedup_keys (transmission_emit lat lon minkv) [] feats).Nodup) ∧
    (∀ lat lon : ℝ, ∀ minkv : ℤ, ∀ xs ys : List TransmissionFeature,
      ∀ g : TransmissionFeature, ∀ k b,
      transmission_emit lat lon minkv g = some (k, b) →
      (∃ f ∈ xs, ∃ b', transmission_emit lat lon minkv f = some (k, b')) →
      query_transmission_lines lat lon minkv (xs ++ g :: ys) =
        query_transmission_lines lat lon minkv (xs ++ ys)) := by
  refine ⟨?_, ?_, ?_, ?_, ?_⟩
  · intro lat lon tops feats
    exact ⟨(dedup_keys_nodup_disjoint _ feats []).1, dedup_loop_length_eq_keys _ feats []⟩
  · intro lat lon tops f feats k b hf hemit
    exact dedup_keys_mem _ feats [] f k b hf hemit (List.not_mem_nil _)
  · intro lat lon tops xs ys g k b hg hex
    unfold query_pipelines
    exact congrArg _ (dedup_loop_drop_dup _ g k b hg xs [] ys (Or.inr hex))
  · intro lat lon minkv feats
    exact (dedup_keys_nodup_disjoint _ feats []).1
  · intro lat lon minkv xs ys g k b hg hex
    unfold query_transmission_lines
    exact congrArg _ (dedup_loop_drop_dup _ g k b hg xs [] ys (Or.inr hex))

theorem dedup_key_exactly_one_witness :
    query_pipelines 0 1 [] [opFeature, opFeature] = query_pipelines 0 1 [] [opFeature] :=
  dedup_key_exactly_one.2.2.1 0 1 [] [opFeature] [] opFeature
    ("Op", pyRound (haversine_distance 0 1 0 0)) opRecord pipeline_emit_opFeature
    ⟨opFeature, List.mem_cons_self _ _, opRecord, pipeline_emit_opFeature⟩

/-! ### C5: ranking is an ascending stable sort by distance -/

theorem sortByKey_trans {α : Type} (key : α → ℝ) :
    ∀ a b c : α, decide (key a ≤ key b) = true → decide (key b ≤ key c) = true →
      decide (key a ≤ key c) = true := by
  intro a b c hab hbc
  rw [decide_eq_true_iff] at *
  exact le_trans hab hbc

theorem sortByKey_total {α : Type} (key : α → ℝ) :
    ∀ a b : α, (decide (key a ≤ key b) || decide (key b ≤ key a)) = true := by
  intro a b
  simpa using le_total (key a) (key b)

theorem sortByKey_sorted {α : Type} (key : α → ℝ) (l : List α) :
    (sortByKey key l).Pairwise (fun a b => key a ≤ key b) := by
  have h := List.sorted_mergeSort (sortByKey_trans key) (sortByKey_total key) l
  exact h.imp (fun hab => of_decide_eq_true hab)

theorem sortByKey_stable {α : Type} (key : α → ℝ) (l : List α) (a b : α)
    (hsub : [a, b].Sublist l) (heq : key a = key b) :
    [a, b].Sublist (sortByKey key l) := by
  apply List.sublist_mergeSort (sortByKey_trans key) (sortByKey_total key)
  · refine List.pairwise_cons.mpr ⟨?_, List.pairwise_singleton _ _⟩
    intro y hy
    rw [List.mem_singleton] at hy
    subst hy
    simp [heq]
  · exact hsub

/-- C5: the result lists of `query_pipelines` and `query_substations` are
sorted ascending by `distance_km`, and the sort is stable: two records at
equal `distance_km` keep the relative order they had in the batch built
from the response (so identical input yields identical output order). -/
theorem results_sorted_and_stable :
    (∀ lat lon : ℝ, ∀ tops : List String, ∀ feats : List PipelineFeature,
      (query_pipelines lat lon tops feats).Pairwise
        (fun a b => a.distance_km ≤ b.distance_km)) ∧
    (∀ lat lon : ℝ, ∀ tops : List String, ∀ feats : List PipelineFeature,
      ∀ a b : PipelineRecord,
      [a, b].Sublist (dedup_loop (pipeline_emit lat lon tops) [] feats) →
      a.distance_km = b.distance_km →
      [a, b].Sublist (query_pipelines lat lon tops feats)) ∧
    (∀ lat lon : ℝ, ∀ feats : List SubstationFeature,
      (query_substations lat lon feats).Pairwise
        (fun a b => a.distance_km ≤ b.distance_km)) ∧
    (∀ lat lon : ℝ, ∀ feats : List SubstationFeature, ∀ a b : SubstationRecord,
      [a, b].Sublist (feats.filterMap (substation_emit lat lon)) →
      a.distance_km = b.distance_km →
      [a, b].Sublist (query_substations lat lon feats)) := by
  refine ⟨?_, ?_, ?_, ?_⟩
  · intro lat lon tops feats
    exact sortByKey_sorted _ _
  · intro lat lon tops feats a b hsub heq
    exact sortByKey_stable _ _ a b hsub heq
  · intro lat lon feats
    exact sortByKey_sorted _ _
  · intro lat lon feats a b hsub heq
    exact sortByKey_stable _ _ a b hsub heq

theorem substation_emit_subFeature :
    substation_emit 0 0 subFeature = some subRecord := by
  have htr : truthy (some (5 : ℝ)) = true := by
    simp [truthy]
  unfold substation_emit
  simp only [subFeature, htr, Bool.not_true, Bool.or_self, Bool.false_eq_true,
    if_false, ite_false]
  rfl

theorem results_sorted_and_stable_witness :
    [subRecord, subRecord].Sublist (query_substations 0 0 [subFeature, subFeature]) := by
  have hfm : ([subFeature, subFeature] : List SubstationFeature).filterMap
      (substation_emit 0 0) = [subRecord, subRecord] := by
    simp [List.filterMap_cons, substation_emit_subFeature]
  exact results_sorted_and_stable.2.2.2 0 0 [subFeature, subFeature] subRecord subRecord
    (by rw [hfm]) rfl

/-! ### C6: field fallback uses Python truthiness, not presence -/

theorem sortByKey_singleton {α : Type} (key : α → ℝ) (a : α) :
    sortByKey key [a] = [a] := by
  have h := List.mergeSort_perm [a] (fun x y => decide (key x ≤ key y))
  exact List.perm_singleton.mp h

theorem pyRoundTo_int (n : ℕ) (m : ℤ) : pyRoundTo n (m : ℝ) = m := by
  unfold pyRoundTo
  have h : (m : ℝ) * 10 ^ n = ((m * 10 ^ n : ℤ) : ℝ) := by
    push_cast
    ring
  rw [h, pyRound_intCast]
  push_cast
  field_simp

theorem substation_emit_zeroLat :
    substation_emit 0 0 subZeroLatFeature = some subZeroLatRecord := by
  have h0 : truthy (some (0 : ℝ)) = false := by
    simp [truthy]
  have h5 : truthy (some (5 : ℝ)) = true := by
    simp [truthy]
  have h20 : truthy (some (20 : ℝ)) = true := by
    simp [truthy]
  unfold substation_emit
  simp only [subZeroLatFeature, h0, Bool.not_false, Bool.true_or, if_true, ite_true,
    h5, h20, Bool.not_true, Bool.or_self, Bool.false_eq_true, if_false, ite_false]
  rfl

/-- C6 counterexample: the `LATITUDE` attribute of `subZeroLatFeature` is
present and non-null with value 0 and `LONGITUDE` is present with value 10,
yet the record is built from the geometry fallback (y = 5, x = 20): the
source tests Python truthiness (`if not slat or not slon`), so a present
value of 0 is treated as missing and even the present longitude 10 is
replaced — the claimed "first present non-null value wins" behavior fails. -/
theorem substation_zero_latitude_not_used :
    (query_substations 0 0 [subZeroLatFeature]).map (fun r => (r.lat, r.lon)) =
      [((5 : ℝ), (20 : ℝ))] ∧ ((5 : ℝ), (20 : ℝ)) ≠ ((0 : ℝ), (10 : ℝ)) := by
  constructor
  · have : query_substations 0 0 [subZeroLatFeature] = [subZeroLatRecord] := by
      unfold query_substations
      rw [show ([subZeroLatFeature] : List SubstationFeature).filterMap
          (substation_emit 0 0) = [subZeroLatRecord] by
        simp [List.filterMap_cons, substation_emit_zeroLat]]
      exact sortByKey_singleton _ _
    rw [this]
    simp only [List.map_cons, List.map_nil, subZeroLatRecord]
    refine congrArg (fun p => [p]) (Prod.ext ?_ ?_)
    · rw [show ((5 : ℝ)) = (((5 : ℤ)) : ℝ) by norm_num, pyRoundTo_int]
    · rw [show ((20 : ℝ)) = (((20 : ℤ)) : ℝ) by norm_num, pyRoundTo_int]
  · intro h
    have := congrArg Prod.fst h
    norm_num at this

/-- C6 amended: the lat/lon extraction is a joint, truthiness-based
fallback: when both the `LATITUDE` and `LONGITUDE` attributes are truthy
(present, non-null and non-zero) they win over the geometry fallback, even
when the geometry also holds values; but if either is falsy — including a
present value of 0 — BOTH coordinates are taken from the geometry `y`/`x`
instead. -/
theorem substation_coordinate_fallback_truthy (f : SubstationFeature)
    (hlat : truthy f.attr_latitude = true) (hlon : truthy f.attr_longitude = true) :
    ∀ lat lon : ℝ, (query_substations lat lon [f]).map (fun r => (r.lat, r.lon)) =
      [(pyRoundTo 6 (f.attr_latitude.getD 0), pyRoundTo 6 (f.attr_longitude.getD 0))] := by
  intro lat lon
  have hemit : substation_emit lat lon f = some
      { name := f.attr_name.getD "Unknown"
        stype := f.attr_type.getD "Unknown"
        status := f.attr_status.getD "Unknown"
        lines := f.attr_lines.getD 0
        city := f.attr_city.getD ""
        county := f.attr_county.getD ""
        state := f.attr_state.getD ""
        source := f.attr_source.getD ""
        source_date := f.attr_sourcedate.getD ""
        distance_km := pyRoundTo 1 (haversine_distance lat lon
          (f.attr_latitude.getD 0) (f.attr_longitude.getD 0))
        distance_mi := pyRoundTo 1 (km_to_miles (haversine_distance lat lon
          (f.attr_latitude.getD 0) (f.attr_longitude.getD 0)))
        lat := pyRoundTo 6 (f.attr_latitude.getD 0)
        lon := pyRoundTo 6 (f.attr_longitude.getD 0)
        direction := compass_direction lat lon
          (f.attr_latitude.getD 0) (f.attr_longitude.getD 0)
        objectid := f.attr_objectid } := by
    unfold substation_emit
    simp only [hlat, hlon, Bool.not_true, Bool.or_self, Bool.false_eq_true,
      if_false, ite_false]
  cases hex : substation_emit lat lon f with
  | none =>
    rw [hex] at hemit
    exact absurd hemit (by simp)
  | some r =>
    rw [hex] at hemit
    have hr := Option.some.inj hemit
    unfold query_substations
    rw [show ([f] : List SubstationFeature).filterMap (substation_emit lat lon) = [r] by
        simp [hex],
      sortByKey_singleton]
    simp [hr]

theorem substation_coordinate_fallback_truthy_witness :
    (query_substations 0 0 [subFeature]).map (fun r => (r.lat, r.lon)) =
      [(pyRoundTo 6 (subFeature.attr_latitude.getD 0),
        pyRoundTo 6 (subFeature.attr_longitude.getD 0))] :=
  substation_coordinate_fallback_truthy subFeature (by simp [subFeature, truthy])
    (by simp [subFeature, truthy]) 0 0

/-! ### C1: nearest point on polylines by segment projection -/

theorem arcsin_sqrt_strict_mono {A B : ℝ} (hA : 0 ≤ A) (hAB : A < B) (hB1 : B ≤ 1) :
    6371.0 * (2 * Real.arcsin (Real.sqrt A)) < 6371.0 * (2 * Real.arcsin (Real.sqrt B)) := by
  have h1 : Real.sqrt A < Real.sqrt B := Real.sqrt_lt_sqrt hA hAB
  have h2 : Real.sqrt B ≤ 1 := Real.sqrt_le_one.mpr hB1
  have h3 : Real.arcsin (Real.sqrt A) < Real.arcsin (Real.sqrt B) :=
    Real.strictMonoOn_arcsin ⟨by linarith [Real.sqrt_nonneg A], by linarith⟩
      ⟨by linarith [Real.sqrt_nonneg B], h2⟩ h1
  norm_num
  linarith

set_option maxHeartbeats 1600000 in
theorem hav_fixture_lt :
    haversine_distance 5 1 5 0 < haversine_distance 5 1 0 0 ∧
    haversine_distance 5 1 5 0 < haversine_distance 5 1 10 0 := by
  have hπ := Real.pi_pos
  have hπu : Real.pi < 3.15 := Real.pi_lt_d2
  have e1 : (radians 0 - radians 1) / 2 = -(Real.pi / 360) := by
    unfold radians
    ring
  have e5 : (radians 0 - radians 5) / 2 = -(Real.pi / 72) := by
    unfold radians
    ring
  have e10 : (radians 10 - radians 5) / 2 = Real.pi / 72 := by
    unfold radians
    ring
  have hzero : Real.sin ((radians 5 - radians 5) / 2) ^ 2 = 0 := by
    rw [sub_self, zero_div, Real.sin_zero]
    norm_num
  have hsin1 : Real.sin ((radians 0 - radians 1) / 2) ^ 2 = Real.sin (Real.pi / 360) ^ 2 := by
    rw [e1, Real.sin_neg]
    ring
  have hsin5 : Real.sin ((radians 0 - radians 5) / 2) ^ 2 = Real.sin (Real.pi / 72) ^ 2 := by
    rw [e5, Real.sin_neg]
    ring
  have hsin10 : Real.sin ((radians 10 - radians 5) / 2) ^ 2 = Real.sin (Real.pi / 72) ^ 2 := by
    rw [e10]
  have hc0 : Real.cos (radians 0) = 1 := by
    unfold radians
    norm_num
  have h360pos : 0 < Real.pi / 360 := by positivity
  have h72pos : 0 < Real.pi / 72 := by positivity
  have hs1pos : 0 < Real.sin (Real.pi / 360) :=
    Real.sin_pos_of_pos_of_lt_pi h360pos (by linarith)
  have hs5pos : 0 < Real.sin (Real.pi / 72) :=
    Real.sin_pos_of_pos_of_lt_pi h72pos (by linarith)
  have hmono : Real.sin (Real.pi / 360) < Real.sin (Real.pi / 72) := by
    apply Real.strictMonoOn_sin ⟨by linarith, by linarith⟩ ⟨by linarith, by linarith⟩
    linarith
  have hsq : Real.sin (Real.pi / 360) ^ 2 < Real.sin (Real.pi / 72) ^ 2 :=
    pow_lt_pow_left₀ hmono (le_of_lt hs1pos) (by norm_num)
  have hs1lt : Real.sin (Real.pi / 360) < Real.pi / 360 := Real.sin_lt h360pos
  have hs5lt : Real.sin (Real.pi / 72) < Real.pi / 72 := Real.sin_lt h72pos
  have ht0 : (0 : ℝ) ≤ Real.sin (Real.pi / 360) ^ 2 := sq_nonneg _
  have hS0 : (0 : ℝ) ≤ Real.sin (Real.pi / 72) ^ 2 := sq_nonneg _
  have htsmall : Real.sin (Real.pi / 360) ^ 2 < 0.0000766 := by
    have hub : Real.sin (Real.pi / 360) < 0.00875 := by linarith
    nlinarith
  have hSsmall : Real.sin (Real.pi / 72) ^ 2 < 0.0019141 := by
    have hub : Real.sin (Real.pi / 72) < 0.04375 := by linarith
    nlinarith
  have hc5l : -1 ≤ Real.cos (radians 5) := Real.neg_one_le_cos _
  have hc5u : Real.cos (radians 5) ≤ 1 := Real.cos_le_one _
  have hc5nn : 0 ≤ Real.cos (radians 5) := by
    apply Real.cos_nonneg_of_mem_Icc
    constructor
    · unfold radians
      linarith
    · unfold radians
      linarith
  have hc10u : Real.cos (radians 10) ≤ 1 := Real.cos_le_one _
  have hc10nn : 0 ≤ Real.cos (radians 10) := by
    apply Real.cos_nonneg_of_mem_Icc
    constructor
    · unfold radians
      linarith
    · unfold radians
      linarith
  have hc5sq : Real.cos (radians 5) * Real.cos (radians 5) ≤ 1 := by nlinarith
  have hA1 : haversine_distance 5 1 5 0 = 6371.0 * (2 * Real.arcsin (Real.sqrt
      (Real.sin ((radians 5 - radians 5) / 2) ^ 2 +
        Real.cos (radians 5) * Real.cos (radians 5) *
          Real.sin ((radians 0 - radians 1) / 2) ^ 2))) := rfl
  have hA2 : haversine_distance 5 1 0 0 = 6371.0 * (2 * Real.arcsin (Real.sqrt
      (Real.sin ((radians 0 - radians 5) / 2) ^ 2 +
        Real.cos (radians 5) * Real.cos (radians 0) *
          Real.sin ((radians 0 - radians 1) / 2) ^ 2))) := rfl
  have hA3 : haversine_distance 5 1 10 0 = 6371.0 * (2 * Real.arcsin (Real.sqrt
      (Real.sin ((radians 10 - radians 5) / 2) ^ 2 +
        Real.cos (radians 5) * Real.cos (radians 10) *
          Real.sin ((radians 0 - radians 1) / 2) ^ 2))) := rfl
  rw [hA1, hA2, hA3, hzero, hsin1, hsin5, hsin10, hc0]
  have hc5t : 0 ≤ Real.cos (radians 5) * Real.sin (Real.pi / 360) ^ 2 :=
    mul_nonneg hc5nn ht0
  have hc5c10 : 0 ≤ Real.cos (radians 5) * Real.cos (radians 10) :=
    mul_nonneg hc5nn hc10nn
  have hcc1 : Real.cos (radians 5) * Real.cos (radians 10) ≤ 1 := by nlinarith
  have hA1le : 0 + Real.cos (radians 5) * Real.cos (radians 5) *
      Real.sin (Real.pi / 360) ^ 2 ≤ Real.sin (Real.pi / 360) ^ 2 := by nlinarith
  have hA1nn : 0 ≤ 0 + Real.cos (radians 5) * Real.cos (radians 5) *
      Real.sin (Real.pi / 360) ^ 2 := by nlinarith
  constructor
  · apply arcsin_sqrt_strict_mono hA1nn
    · nlinarith
    · nlinarith
  · apply arcsin_sqrt_strict_mono hA1nn
    · nlinarith
    · nlinarith

theorem foldl_min_le : ∀ (l : List ℝ) (a : ℝ),
    l.foldl min a ≤ a ∧ ∀ x ∈ l, l.foldl min a ≤ x
  | [], a => ⟨le_refl _, by simp⟩
  | x :: l, a => by
    have ih := foldl_min_le l (min a x)
    simp only [List.foldl_cons]
    refine ⟨le_trans ih.1 (min_le_left _ _), ?_⟩
    intro y hy
    rcases List.mem_cons.mp hy with rfl | hy'
    · exact le_trans ih.1 (min_le_right _ _)
    · exact ih.2 y hy'

theorem foldl_min_eq_or_mem : ∀ (l : List ℝ) (a : ℝ),
    l.foldl min a = a ∨ l.foldl min a ∈ l
  | [], _ => Or.inl rfl
  | x :: l, a => by
    simp only [List.foldl_cons]
    rcases foldl_min_eq_or_mem l (min a x) with h | h
    · rcases le_total a x with hax | hxa
      · left
        rw [h, min_eq_left hax]
      · right
        rw [h, min_eq_right hxa]
        exact List.mem_cons_self _ _
    · right
      exact List.mem_cons_of_mem _ h

theorem nearest_on_paths_foldl_fst (plat plon : ℝ) :
    ∀ (paths : List (List Pt)) (b : ℝ × Option (ℝ × ℝ)),
      (∀ p ∈ paths, 2 ≤ p.length) →
      (paths.foldl
        (fun best path =>
          if path.length < 2 then
            match path with
            | [] => best
            | c :: _ =>
              let d := haversine_distance plat plon c.2 c.1
              if d < best.1 then (d, some (c.2, c.1)) else best
          else
            let np := lineClosest (plon, plat) path
            let d := haversine_distance plat plon np.2 np.1
            if d < best.1 then (d, some (np.2, np.1)) else best)
        b).1 = (paths.map (path_projection_distance plat plon)).foldl min b.1
  | [], b, _ => rfl
  | p :: paths, b, h => by
    have hp : 2 ≤ p.length := h p (List.mem_cons_self _ _)
    have hrest : ∀ q ∈ paths, 2 ≤ q.length := fun q hq => h q (List.mem_cons_of_mem _ hq)
    simp only [List.foldl_cons, List.map_cons]
    rw [if_neg (by omega)]
    rw [nearest_on_paths_foldl_fst plat plon paths _ hrest]
    congr 1
    show (if haversine_distance plat plon (lineClosest (plon, plat) p).2
        (lineClosest (plon, plat) p).1 < b.1 then
        (haversine_distance plat plon (lineClosest (plon, plat) p).2
          (lineClosest (plon, plat) p).1,
         some ((lineClosest (plon, plat) p).2, (lineClosest (plon, plat) p).1))
      else b).1 = min b.1 (path_projection_distance plat plon p)
    unfold path_projection_distance
    split
    · next hlt => exact (min_eq_right (le_of_lt hlt)).symm
    · next hge => exact (min_eq_left (not_lt.mp hge)).symm

theorem lineClosest_fold_argmin (q : Pt) : ∀ (segs : List (Pt × Pt)) (a : Pt),
    (segs.foldl (fun best seg =>
        let c := segClosest q seg.1 seg.2
        if dist2 q c < dist2 q best then c else best) a = a ∨
      segs.foldl (fun best seg =>
        let c := segClosest q seg.1 seg.2
        if dist2 q c < dist2 q best then c else best) a ∈
        segs.map (fun s => segClosest q s.1 s.2)) ∧
    dist2 q (segs.foldl (fun best seg =>
        let c := segClosest q seg.1 seg.2
        if dist2 q c < dist2 q best then c else best) a) ≤ dist2 q a ∧
    ∀ s ∈ segs, dist2 q (segs.foldl (fun best seg =>
        let c := segClosest q seg.1 seg.2
        if dist2 q c < dist2 q best then c else best) a) ≤
      dist2 q (segClosest q s.1 s.2)
  | [], a => ⟨Or.inl rfl, le_refl _, by simp⟩
  | s :: segs, a => by
    simp only [List.foldl_cons, List.map_cons]
    by_cases hc : dist2 q (segClosest q s.1 s.2) < dist2 q a
    · have ih := lineClosest_fold_argmin q segs (segClosest q s.1 s.2)
      simp only [if_pos hc]
      refine ⟨?_, ?_, ?_⟩
      · rcases ih.1 with h | h
        · refine Or.inr ?_
          rw [h]
          exact List.mem_cons_self _ _
        · exact Or.inr (List.mem_cons_of_mem _ h)
      · exact le_trans ih.2.1 (le_of_lt hc)
      · intro s' hs'
        rcases List.mem_cons.mp hs' with rfl | hs''
        · exact ih.2.1
        · exact ih.2.2 s' hs''
    · have ih := lineClosest_fold_argmin q segs a
      simp only [if_neg hc]
      refine ⟨?_, ?_, ?_⟩
      · rcases ih.1 with h | h
        · exact Or.inl h
        · exact Or.inr (List.mem_cons_of_mem _ h)
      · exact ih.2.1
      · intro s' hs'
        rcases List.mem_cons.mp hs' with rfl | hs''
        · exact le_trans ih.2.1 (not_lt.mp hc)
        · exact ih.2.2 s' hs''

/-- C1: for a non-empty list of paths, each with at least 2 vertices,
`_nearest_on_paths` returns the minimum over all paths of the distance from
the query point to the locally-flat projection of the query point onto the
segments of the path (and the per-path point is the planar-nearest among the
per-segment projections) — not merely the nearest vertex.  In particular,
for the segment (0,0)–(0,10) and query point (1,5) the nearest point is
(0,5) (returned as (lat 5, lon 0)), strictly between the endpoints, and the
returned distance is strictly smaller than the distance to either endpoint
vertex. -/
theorem nearest_on_paths_min_segment_projection :
    (∀ plat plon : ℝ, ∀ paths : List (List Pt), paths ≠ [] →
      (∀ p ∈ paths, 2 ≤ p.length) →
      ((nearest_on_paths plat plon paths).1 ∈
          paths.map (path_projection_distance plat plon) ∧
        ∀ d ∈ paths.map (path_projection_distance plat plon),
          (nearest_on_paths plat plon paths).1 ≤ d)) ∧
    (∀ q : Pt, ∀ path : List Pt, 2 ≤ path.length →
      (lineClosest q path ∈ (segsOf path).map (fun s => segClosest q s.1 s.2) ∧
        ∀ r ∈ (segsOf path).map (fun s => segClosest q s.1 s.2),
          dist2 q (lineClosest q path) ≤ dist2 q r)) ∧
    (nearest_on_paths 5 1 [[((0 : ℝ), (0 : ℝ)), ((0 : ℝ), (10 : ℝ))]] =
      (haversine_distance 5 1 5 0, some (5, 0))) ∧
    haversine_distance 5 1 5 0 < haversine_distance 5 1 0 0 ∧
    haversine_distance 5 1 5 0 < haversine_distance 5 1 10 0 := by
  refine ⟨?_, ?_, ?_, hav_fixture_lt.1, hav_fixture_lt.2⟩
  · intro plat plon paths hne hlen
    have hfold' : (nearest_on_paths plat plon paths).1 =
        (paths.map (path_projection_distance plat plon)).foldl min 999999 :=
      nearest_on_paths_foldl_fst plat plon paths (999999, none) hlen
    have hallsmall : ∀ x ∈ paths.map (path_projection_distance plat plon), x < 999999 := by
      intro x hx
      rcases List.mem_map.mp hx with ⟨p, _, rfl⟩
      exact haversine_lt_999999 _ _ _ _
    have hmle := foldl_min_le (paths.map (path_projection_distance plat plon)) 999999
    rcases foldl_min_eq_or_mem (paths.map (path_projection_distance plat plon)) 999999
      with heq | hmem
    · exfalso
      rcases paths with _ | ⟨p, ps⟩
      · exact hne rfl
      · have hx : path_projection_distance plat plon p ∈
            (p :: ps).map (path_projection_distance plat plon) :=
          List.mem_map_of_mem _ (List.mem_cons_self _ _)
        have hle := hmle.2 _ hx
        rw [heq] at hle
        exact absurd (hallsmall _ hx) (not_lt.mpr hle)
    · rw [hfold']
      exact ⟨hmem, hmle.2⟩
  · intro q path hlen
    match path, hlen with
    | x :: y :: rest, _ =>
      have h := lineClosest_fold_argmin q (segsOf (y :: rest)) (segClosest q x y)
      have hl : lineClosest q (x :: y :: rest) = (segsOf (y :: rest)).foldl
          (fun best seg =>
            let c := segClosest q seg.1 seg.2
            if dist2 q c < dist2 q best then c else best) (segClosest q x y) := rfl
      have hsegs : segsOf (x :: y :: rest) = (x, y) :: segsOf (y :: rest) := rfl
      rw [hl, hsegs]
      simp only [List.map_cons]
      constructor
      · rcases h.1 with heq | hmem
        · rw [heq]
          exact List.mem_cons_self _ _
        · exact List.mem_cons_of_mem _ hmem
      · intro r hr
        rcases List.mem_cons.mp hr with rfl | hr'
        · exact h.2.1
        · rcases List.mem_map.mp hr' with ⟨s, hs, rfl⟩
          exact h.2.2 s hs
  · rw [nearest_on_paths_pair]
    have hseg : segClosest ((1 : ℝ), (5 : ℝ)) (0, 0) (0, 10) = ((0 : ℝ), (5 : ℝ)) := by
      unfold segClosest
      norm_num [max_def, min_def]
    rw [hseg]

theorem nearest_on_paths_min_segment_projection_witness :
    (nearest_on_paths 5 1 [[((0 : ℝ), (0 : ℝ)), ((0 : ℝ), (10 : ℝ))]]).1 ∈
        ([[((0 : ℝ), (0 : ℝ)), ((0 : ℝ), (10 : ℝ))]]).map (path_projection_distance 5 1) ∧
      ∀ d ∈ ([[((0 : ℝ), (0 : ℝ)), ((0 : ℝ), (10 : ℝ))]]).map (path_projection_distance 5 1),
        (nearest_on_paths 5 1 [[((0 : ℝ), (0 : ℝ)), ((0 : ℝ), (10 : ℝ))]]).1 ≤ d :=
  nearest_on_paths_min_segment_projection.1 5 1 _ (by simp)
    (by
      intro p hp
      rw [List.mem_singleton] at hp
      subst hp
      norm_num)

/-! ### C3: polygon containment and boundary distance -/

theorem pyRoundTo_pos {n : ℕ} {x : ℝ} (hx : 1 ≤ x) : 0 < pyRoundTo n x := by
  unfold pyRoundTo
  have h10 : (1 : ℝ) ≤ 10 ^ n := one_le_pow₀ (by norm_num)
  have hfloor : (1 : ℤ) ≤ ⌊x * 10 ^ n⌋ := by
    rw [Int.le_floor]
    push_cast
    nlinarith
  have hpr : (1 : ℤ) ≤ pyRound (x * 10 ^ n) :=
    le_trans hfloor (pyRound_floor_le _)
  have : (1 : ℝ) ≤ (pyRound (x * 10 ^ n) : ℝ) := by exact_mod_cast hpr
  positivity

set_option maxHeartbeats 1600000 in
theorem hav_square_lt :
    haversine_distance 2 5 0 5 < haversine_distance 2 5 2 0 ∧
    haversine_distance 2 5 0 5 < haversine_distance 2 5 2 10 ∧
    haversine_distance 2 5 0 5 < haversine_distance 2 5 10 5 ∧
    2 ≤ haversine_distance 2 5 0 5 := by
  have hπ := Real.pi_pos
  have hπu : Real.pi < 3.15 := Real.pi_lt_d2
  have hπl : 3.141592 < Real.pi := Real.pi_gt_d6
  have hAb : haversine_distance 2 5 0 5 = 6371.0 * (2 * Real.arcsin (Real.sqrt
      (Real.sin ((radians 0 - radians 2) / 2) ^ 2 +
        Real.cos (radians 2) * Real.cos (radians 0) *
          Real.sin ((radians 5 - radians 5) / 2) ^ 2))) := rfl
  have hAl : haversine_distance 2 5 2 0 = 6371.0 * (2 * Real.arcsin (Real.sqrt
      (Real.sin ((radians 2 - radians 2) / 2) ^ 2 +
        Real.cos (radians 2) * Real.cos (radians 2) *
          Real.sin ((radians 0 - radians 5) / 2) ^ 2))) := rfl
  have hAr : haversine_distance 2 5 2 10 = 6371.0 * (2 * Real.arcsin (Real.sqrt
      (Real.sin ((radians 2 - radians 2) / 2) ^ 2 +
        Real.cos (radians 2) * Real.cos (radians 2) *
          Real.sin ((radians 10 - radians 5) / 2) ^ 2))) := rfl
  have hAt : haversine_distance 2 5 10 5 = 6371.0 * (2 * Real.arcsin (Real.sqrt
      (Real.sin ((radians 10 - radians 2) / 2) ^ 2 +
        Real.cos (radians 2) * Real.cos (radians 10) *
          Real.sin ((radians 5 - radians 5) / 2) ^ 2))) := rfl
  have hzero : Real.sin ((radians 5 - radians 5) / 2) ^ 2 = 0 := by
    rw [sub_self, zero_div, Real.sin_zero]
    norm_num
  have hzero2 : Real.sin ((radians 2 - radians 2) / 2) ^ 2 = 0 := by
    rw [sub_self, zero_div, Real.sin_zero]
    norm_num
  have eb : (radians 0 - radians 2) / 2 = -(Real.pi / 180) := by
    unfold radians
    ring
  have el : (radians 0 - radians 5) / 2 = -(Real.pi / 72) := by
    unfold radians
    ring
  have er : (radians 10 - radians 5) / 2 = Real.pi / 72 := by
    unfold radians
    ring
  have et : (radians 10 - radians 2) / 2 = Real.pi / 45 := by
    unfold radians
    ring
  have hsb : Real.sin ((radians 0 - radians 2) / 2) ^ 2 = Real.sin (Real.pi / 180) ^ 2 := by
    rw [eb, Real.sin_neg]
    ring
  have hsl : Real.sin ((radians 0 - radians 5) / 2) ^ 2 = Real.sin (Real.pi / 72) ^ 2 := by
    rw [el, Real.sin_neg]
    ring
  have hsr : Real.sin ((radians 10 - radians 5) / 2) ^ 2 = Real.sin (Real.pi / 72) ^ 2 := by
    rw [er]
  have hst : Real.sin ((radians 10 - radians 2) / 2) ^ 2 = Real.sin (Real.pi / 45) ^ 2 := by
    rw [et]
  have hc0 : Real.cos (radians 0) = 1 := by
    unfold radians
    norm_num
  have h180pos : 0 < Real.pi / 180 := by positivity
  have h72pos : 0 < Real.pi / 72 := by positivity
  have h45pos : 0 < Real.pi / 45 := by positivity
  have hsbpos : 0 < Real.sin (Real.pi / 180) :=
    Real.sin_pos_of_pos_of_lt_pi h180pos (by linarith only [hπ])
  have hs72pos : 0 < Real.sin (Real.pi / 72) :=
    Real.sin_pos_of_pos_of_lt_pi h72pos (by linarith only [hπ])
  have hs45pos : 0 < Real.sin (Real.pi / 45) :=
    Real.sin_pos_of_pos_of_lt_pi h45pos (by linarith only [hπ])
  have hsbu : Real.sin (Real.pi / 180) < Real.pi / 180 := Real.sin_lt h180pos
  have hsbnum : Real.sin (Real.pi / 180) ≤ 0.0175 := by linarith only [hsbu, hπu]
  have h72u : Real.pi / 72 ≤ 0.04375 := by linarith only [hπu]
  have h72l : 0.0436 ≤ Real.pi / 72 := by linarith only [hπl]
  have hs72cube : Real.pi / 72 - (Real.pi / 72) ^ 3 / 4 < Real.sin (Real.pi / 72) :=
    Real.sin_gt_sub_cube h72pos (by linarith only [hπu])
  have hcube : (Real.pi / 72) ^ 3 ≤ 0.0000838 :=
    calc (Real.pi / 72) ^ 3 ≤ 0.04375 ^ 3 := pow_le_pow_left₀ (le_of_lt h72pos) h72u 3
      _ ≤ 0.0000838 := by norm_num
  have hs72num : (0.0435 : ℝ) ≤ Real.sin (Real.pi / 72) := by
    linarith only [hs72cube, hcube, h72l]
  have hs72le : Real.sin (Real.pi / 72) ≤ 1 := Real.sin_le_one _
  have hs45le : Real.sin (Real.pi / 45) ≤ 1 := Real.sin_le_one _
  have hrad2 : radians 2 = Real.pi / 90 := by
    unfold radians
    ring
  have hc2q : 1 - radians 2 ^ 2 / 2 ≤ Real.cos (radians 2) := Real.one_sub_sq_div_two_le_cos
  have hrad2u : radians 2 ≤ 0.035 := by
    rw [hrad2]
    linarith only [hπu]
  have hrad2l : 0 ≤ radians 2 := by
    rw [hrad2]
    positivity
  have hrad2sq : radians 2 ^ 2 ≤ 0.001225 :=
    calc radians 2 ^ 2 ≤ 0.035 ^ 2 := pow_le_pow_left₀ hrad2l hrad2u 2
      _ ≤ 0.001225 := by norm_num
  have hc2l : (0.999 : ℝ) ≤ Real.cos (radians 2) := by linarith only [hc2q, hrad2sq]
  have hc2u : Real.cos (radians 2) ≤ 1 := Real.cos_le_one _
  have hc2nn : (0 : ℝ) ≤ Real.cos (radians 2) := by linarith only [hc2l]
  have hmono45 : Real.sin (Real.pi / 180) < Real.sin (Real.pi / 45) := by
    apply Real.strictMonoOn_sin ⟨by linarith only [hπ], by linarith only [hπ]⟩
      ⟨by linarith only [hπ], by linarith only [hπ]⟩
    linarith only [hπ]
  have hsb2 : Real.sin (Real.pi / 180) ^ 2 ≤ 0.00030625 :=
    calc Real.sin (Real.pi / 180) ^ 2 ≤ 0.0175 ^ 2 :=
          pow_le_pow_left₀ (le_of_lt hsbpos) hsbnum 2
      _ ≤ 0.00030625 := by norm_num
  have hs72sq : (0.00189225 : ℝ) ≤ Real.sin (Real.pi / 72) ^ 2 :=
    calc (0.00189225 : ℝ) = 0.0435 ^ 2 := by norm_num
      _ ≤ Real.sin (Real.pi / 72) ^ 2 := pow_le_pow_left₀ (by norm_num) hs72num 2
  have hc2sq : (0.998001 : ℝ) ≤ Real.cos (radians 2) * Real.cos (radians 2) :=
    calc (0.998001 : ℝ) = 0.999 * 0.999 := by norm_num
      _ ≤ Real.cos (radians 2) * Real.cos (radians 2) :=
          mul_le_mul hc2l hc2l (by norm_num) hc2nn
  have hmain : Real.sin (Real.pi / 180) ^ 2 <
      Real.cos (radians 2) * Real.cos (radians 2) * Real.sin (Real.pi / 72) ^ 2 := by
    have h1 : (0.998001 : ℝ) * 0.00189225 ≤
        Real.cos (radians 2) * Real.cos (radians 2) * Real.sin (Real.pi / 72) ^ 2 :=
      mul_le_mul hc2sq hs72sq (by norm_num) (by linarith only [hc2sq])
    linarith only [h1, hsb2]
  have hle1 : Real.cos (radians 2) * Real.cos (radians 2) *
      Real.sin (Real.pi / 72) ^ 2 ≤ 1 := by
    have hcc : Real.cos (radians 2) * Real.cos (radians 2) ≤ 1 :=
      mul_le_one₀ hc2u hc2nn hc2u
    have hss : Real.sin (Real.pi / 72) ^ 2 ≤ 1 :=
      pow_le_one₀ (le_of_lt hs72pos) hs72le
    have h2 := mul_le_mul hcc hss (sq_nonneg _) (by norm_num)
    linarith only [h2]
  rw [hAb, hAl, hAr, hAt, hzero, hzero2, hsb, hsl, hsr, hst, hc0]
  have eBl : (0 : ℝ) + Real.cos (radians 2) * Real.cos (radians 2) *
      Real.sin (Real.pi / 72) ^ 2 =
      Real.cos (radians 2) * Real.cos (radians 2) * Real.sin (Real.pi / 72) ^ 2 := by ring
  rw [show Real.sin (Real.pi / 180) ^ 2 + Real.cos (radians 2) * 1 * 0 =
      Real.sin (Real.pi / 180) ^ 2 by ring]
  refine ⟨?_, ?_, ?_, ?_⟩
  · apply arcsin_sqrt_strict_mono (sq_nonneg _)
    · rw [eBl]
      exact hmain
    · rw [eBl]
      exact hle1
  · apply arcsin_sqrt_strict_mono (sq_nonneg _)
    · rw [eBl]
      exact hmain
    · rw [eBl]
      exact hle1
  · apply arcsin_sqrt_strict_mono (sq_nonneg _)
    · rw [show Real.sin (Real.pi / 45) ^ 2 + Real.cos (radians 2) * Real.cos (radians 10) * 0 =
          Real.sin (Real.pi / 45) ^ 2 by ring]
      exact pow_lt_pow_left₀ hmono45 (le_of_lt hsbpos) (by norm_num)
    · rw [show Real.sin (Real.pi / 45) ^ 2 + Real.cos (radians 2) * Real.cos (radians 10) * 0 =
          Real.sin (Real.pi / 45) ^ 2 by ring]
      exact pow_le_one₀ (le_of_lt hs45pos) hs45le
  · have hsqrt : Real.sqrt (Real.sin (Real.pi / 180) ^ 2) = Real.sin (Real.pi / 180) := by
      rw [Real.sqrt_sq (le_of_lt hsbpos)]
    rw [hsqrt, Real.arcsin_sin (by linarith only [hπ]) (by linarith only [hπ])]
    linarith only [hπl]

theorem closeRing_sqRing : closeRing sqRing = sqRing := by
  show (if sqRing.getLast? = some ((0 : ℝ), (0 : ℝ)) then sqRing
    else sqRing ++ [((0 : ℝ), (0 : ℝ))]) = sqRing
  rw [if_pos]
  rfl

theorem lineClosest_sqRing : lineClosest ((5 : ℝ), (2 : ℝ)) sqRing = ((5 : ℝ), (0 : ℝ)) := by
  have hstep : lineClosest ((5 : ℝ), (2 : ℝ)) sqRing =
      ([(((10 : ℝ), (0 : ℝ)), ((10 : ℝ), (10 : ℝ))),
        (((10 : ℝ), (10 : ℝ)), ((0 : ℝ), (10 : ℝ))),
        (((0 : ℝ), (10 : ℝ)), ((0 : ℝ), (0 : ℝ)))] : List (Pt × Pt)).foldl
        (fun best seg =>
          let c := segClosest ((5 : ℝ), (2 : ℝ)) seg.1 seg.2
          if dist2 ((5 : ℝ), (2 : ℝ)) c < dist2 ((5 : ℝ), (2 : ℝ)) best then c else best)
        (segClosest ((5 : ℝ), (2 : ℝ)) ((0 : ℝ), (0 : ℝ)) ((10 : ℝ), (0 : ℝ))) := rfl
  rw [hstep]
  simp only [List.foldl_cons, List.foldl_nil]
  norm_num [segClosest, dist2, max_def, min_def]

theorem inRing_sqRing : inRing ((5 : ℝ), (2 : ℝ)) sqRing = true := by
  have h1 : ¬ crossesRay ((5 : ℝ), (2 : ℝ)) (((0 : ℝ), (0 : ℝ)), ((10 : ℝ), (0 : ℝ))) := by
    unfold crossesRay
    intro h
    exact h.1 rfl
  have h2 : crossesRay ((5 : ℝ), (2 : ℝ)) (((10 : ℝ), (0 : ℝ)), ((10 : ℝ), (10 : ℝ))) := by
    unfold crossesRay
    constructor
    · rw [decide_eq_false (by norm_num : ¬ ((0 : ℝ) > 2)),
        decide_eq_true (by norm_num : ((10 : ℝ) > 2))]
      simp
    · norm_num
  have h3 : ¬ crossesRay ((5 : ℝ), (2 : ℝ)) (((10 : ℝ), (10 : ℝ)), ((0 : ℝ), (10 : ℝ))) := by
    unfold crossesRay
    intro h
    exact h.1 rfl
  have h4 : ¬ crossesRay ((5 : ℝ), (2 : ℝ)) (((0 : ℝ), (10 : ℝ)), ((0 : ℝ), (0 : ℝ))) := by
    unfold crossesRay
    intro h
    have hlt := h.2
    norm_num at hlt
  unfold inRing
  rw [closeRing_sqRing]
  rw [show segsOf sqRing =
      [((((0 : ℝ), (0 : ℝ))), (((10 : ℝ), (0 : ℝ)))),
       ((((10 : ℝ), (0 : ℝ))), (((10 : ℝ), (10 : ℝ)))),
       ((((10 : ℝ), (10 : ℝ))), (((0 : ℝ), (10 : ℝ)))),
       ((((0 : ℝ), (10 : ℝ))), (((0 : ℝ), (0 : ℝ))))] from rfl]
  rw [List.filter_cons, List.filter_cons, List.filter_cons, List.filter_cons, List.filter_nil]
  rw [decide_eq_false h1, decide_eq_false h3, decide_eq_false h4, decide_eq_true h2]
  simp only [Bool.false_eq_true, if_false, if_true, ite_true, ite_false]
  rw [decide_eq_true]
  simp only [List.length_cons, List.length_nil]
  exact odd_one

theorem city_emit_eq (lat lon : ℝ) (nm ls : Option String) (cla clo : Option ℝ)
    (ext : List Pt) (rest : List (List Pt)) :
    city_emit lat lon ⟨nm, ls, cla, clo, ext :: rest⟩ = some
      { name := nm.getD "Unknown"
        ctype := ls.getD ""
        inside := polygonContains (lon, lat) (ext :: rest)
        distance_to_boundary_km := pyRoundTo 1 (haversine_distance lat lon
          (lineClosest (lon, lat) (closeRing ext)).2 (lineClosest (lon, lat) (closeRing ext)).1)
        distance_to_boundary_mi := pyRoundTo 1 (km_to_miles (haversine_distance lat lon
          (lineClosest (lon, lat) (closeRing ext)).2 (lineClosest (lon, lat) (closeRing ext)).1))
        distance_to_center_km := pyRoundTo 1 (haversine_distance lat lon (cla.getD 0) (clo.getD 0))
        nearest_boundary_lat := pyRoundTo 6 (lineClosest (lon, lat) (closeRing ext)).2
        nearest_boundary_lon := pyRoundTo 6 (lineClosest (lon, lat) (closeRing ext)).1 } := rfl

/-- C3: for every polygon feature with at least one ring, the resolver
reports both containment (point-in-polygon with holes) and the distance to
the nearest point on the exterior ring; and for the query point (lat 2,
lon 5) strictly inside the simple square `squareCity` the output record has
`inside = true` together with a positive boundary distance equal to the
distance to the nearest edge (the bottom edge, nearest point (lat 0,
lon 5), strictly closer than the other three edges) — not zero and not an
error. -/
theorem city_polygon_containment_and_boundary :
    (∀ lat lon : ℝ, ∀ f : CityFeature, f.rings ≠ [] →
      ∃ r : CityRecord, city_emit lat lon f = some r ∧
        r.inside = polygonContains (lon, lat) f.rings ∧
        r.distance_to_boundary_km = pyRoundTo 1 (haversine_distance lat lon
          (lineClosest (lon, lat) (closeRing (f.rings.headD []))).2
          (lineClosest (lon, lat) (closeRing (f.rings.headD []))).1)) ∧
    (query_city_limits_distance 2 5 [squareCity] = [squareCityRecord] ∧
      squareCityRecord.inside = true ∧
      squareCityRecord.distance_to_boundary_km =
        pyRoundTo 1 (haversine_distance 2 5 0 5) ∧
      0 < squareCityRecord.distance_to_boundary_km ∧
      haversine_distance 2 5 0 5 < haversine_distance 2 5 2 0 ∧
      haversine_distance 2 5 0 5 < haversine_distance 2 5 2 10 ∧
      haversine_distance 2 5 0 5 < haversine_distance 2 5 10 5) := by
  constructor
  · intro lat lon f hne
    obtain ⟨nm, ls, cla, clo, rings⟩ := f
    cases rings with
    | nil => exact absurd rfl hne
    | cons ext rest =>
      exact ⟨_, city_emit_eq lat lon nm ls cla clo ext rest, rfl, rfl⟩
  · have hins : polygonContains ((5 : ℝ), (2 : ℝ)) [sqRing] = true := by
      show (inRing ((5 : ℝ), (2 : ℝ)) sqRing &&
        List.all [] (fun h => !inRing ((5 : ℝ), (2 : ℝ)) h)) = true
      rw [inRing_sqRing]
      rfl
    have hemit : city_emit 2 5 squareCity = some squareCityRecord := by
      have h := city_emit_eq 2 5 (some "Square") none none none sqRing []
      rw [closeRing_sqRing, lineClosest_sqRing, hins] at h
      exact h
    refine ⟨?_, rfl, rfl, ?_, hav_square_lt.1, hav_square_lt.2.1, hav_square_lt.2.2.1⟩
    · unfold query_city_limits_distance
      simp only [List.filterMap_cons, List.filterMap_nil, hemit]
      exact sortByKey_singleton _ _
    · exact pyRoundTo_pos (by linarith [hav_square_lt.2.2.2])

theorem city_polygon_containment_and_boundary_witness :
    ∃ r : CityRecord, city_emit 2 5 squareCity = some r ∧
      r.inside = polygonContains (5, 2) squareCity.rings ∧
      r.distance_to_boundary_km = pyRoundTo 1 (haversine_distance 2 5
        (lineClosest (5, 2) (closeRing (squareCity.rings.headD []))).2
        (lineClosest (5, 2) (closeRing (squareCity.rings.headD []))).1) :=
  city_polygon_containment_and_boundary.1 2 5 squareCity (by simp [squareCity])
